import Mathlib

/-!
Verification development for the opportunity-evaluation-and-execution pipeline:
the AI decision engine (`src/ai/decisionEngine.ts`), the trading engine with its
risk limits and metrics accounting (`tradingEngine.ts`), and the strategy
registry (`strategyRegistry.ts`).

JavaScript numbers are modelled as `Rat` (all constants appearing in the code
are decimal literals, exactly representable); JS `Map` objects, whose iteration
order is insertion order, are modelled as association lists keyed by `id`; the
stable `Array.prototype.sort` is modelled by `List.mergeSort`.  Effectful
collaborators (the neural-network predictor, `Math.random`-driven trade
execution, `Date.now()` and clock readings) are passed in as explicit
parameters, so every operation is a pure function of its inputs.
-/

namespace In1

/-- Risk tier as in the union type of `decisionEngine.ts`. -/
inductive Risk where
  | LOW
  | MEDIUM
  | HIGH
deriving DecidableEq

/-- Recommendation as in the union type of `decisionEngine.ts`. -/
inductive Recommendation where
  | EXECUTE
  | SKIP
  | WAIT
deriving DecidableEq

/-- One entry of the `reasoning` string list built by `evaluateOpportunity`.
Each constructor stands for one of the template strings pushed by the source,
carrying the interpolated values. -/
inductive ReasoningEntry where
  | aiPredictsHigher
  | aiPredictsLower
  | marketConditionScore (score : Rat)
  | riskLevelIs (risk : Risk)
  | gasOptimization (excessCost : Rat)
deriving DecidableEq

/-- `TradeOpportunity` from `types.ts`, with the fields read by the modelled
code.  `timestamp` is the epoch-milliseconds value of the source `Date`. -/
structure TradeOpportunity where
  id : String
  type : String
  tokenA : String
  tokenB : String
  exchangeA : String
  exchangeB : String
  priceA : Rat
  priceB : Rat
  profitUSD : Rat
  profitPercent : Rat
  gasEstimate : Rat
  confidence : Rat
  timestamp : Rat
deriving DecidableEq

/-- `AIEvaluation` from `decisionEngine.ts`.  The source declares
`adjustedProfit` optional but `evaluateOpportunity` always sets it. -/
structure AIEvaluation where
  confidence : Rat
  adjustedProfit : Rat
  risk : Risk
  recommendation : Recommendation
  reasoning : List ReasoningEntry
deriving DecidableEq

/-- The configuration values read by the modelled code (`config.ai.*`,
`config.trading.*` and `config.risk.*`). -/
structure Config where
  confidenceThreshold : Rat
  minProfitThresholdUSD : Rat
  enableRiskLimits : Bool
  maxPositionSizeETH : Rat
  maxDailyLossETH : Rat
deriving DecidableEq

/-- `analyzeMarketConditions` of `decisionEngine.ts`.  The wall-clock hour read
via `new Date().getHours()` is passed in as `hour`. -/
def analyzeMarketConditions (hour : Nat) (opp : TradeOpportunity) : Rat :=
  let score : Rat := 1
  let score := if 9 ≤ hour ∧ hour ≤ 17 then score * 1.1 else score * 0.9
  let score :=
    if opp.profitUSD > 50 then score * 1.2
    else if opp.profitUSD < 5 then score * 0.8
    else score
  max 0.1 (min 2 score)

/-- `assessRisk` of `decisionEngine.ts`.  `now` models `Date.now()`. -/
def assessRisk (now : Rat) (opp : TradeOpportunity) (confidence : Rat) : Risk :=
  let riskScore : Nat := 0
  let riskScore := riskScore +
    (if opp.profitUSD > 100 then 2 else if opp.profitUSD > 50 then 1 else 0)
  let riskScore := riskScore +
    (if opp.gasEstimate > 0.05 then 2 else if opp.gasEstimate > 0.02 then 1 else 0)
  let riskScore := riskScore +
    (if confidence < 0.5 then 2 else if confidence < 0.7 then 1 else 0)
  let age := now - opp.timestamp
  let riskScore := riskScore +
    (if age > 30000 then 2 else if age > 10000 then 1 else 0)
  if riskScore ≥ 4 then .HIGH
  else if riskScore ≥ 2 then .MEDIUM
  else .LOW

/-- `optimizeGasCosts` of `decisionEngine.ts` (the returned `excessCost`). -/
def optimizeGasCosts (opp : TradeOpportunity) : Rat :=
  let optimalGas : Rat := 0.01
  max 0 (opp.gasEstimate - optimalGas) * 2000

/-- `makeRecommendation` of `decisionEngine.ts`. -/
def makeRecommendation (cfg : Config) (confidence : Rat) (risk : Risk)
    (profit : Rat) : Recommendation :=
  if confidence ≥ cfg.confidenceThreshold ∧ profit > cfg.minProfitThresholdUSD then
    if risk = .HIGH ∧ confidence < 0.9 then .WAIT else .EXECUTE
  else if profit < cfg.minProfitThresholdUSD / 2 ∨ confidence < 0.3 then .SKIP
  else .WAIT

/-- `evaluateOpportunity` of `decisionEngine.ts`.  The neural-network call
`neuralNetworkPredictor.predictProfit` is passed in as `pred` — `some p` when
the promise resolves to `p`, `none` when it rejects (the `catch` branch, which
only logs). -/
def evaluateOpportunity (cfg : Config) (hour : Nat) (now : Rat)
    (pred : Option Rat) (opp : TradeOpportunity) : AIEvaluation :=
  let reasoning : List ReasoningEntry := []
  let confidence := opp.confidence
  let adjustedProfit := opp.profitUSD
  let step1 : Rat × Rat × List ReasoningEntry :=
    match pred with
    | some predictedProfit =>
        let profitAlignment := predictedProfit / opp.profitUSD
        if profitAlignment > 1.2 then
          (confidence + 0.1, predictedProfit, reasoning ++ [.aiPredictsHigher])
        else if profitAlignment < 0.8 then
          (confidence - 0.1, predictedProfit, reasoning ++ [.aiPredictsLower])
        else
          (confidence, predictedProfit, reasoning)
    | none => (confidence, adjustedProfit, reasoning)
  let confidence := step1.1
  let adjustedProfit := step1.2.1
  let reasoning := step1.2.2
  let marketScore := analyzeMarketConditions hour opp
  let confidence := confidence * marketScore
  let reasoning := reasoning ++ [.marketConditionScore marketScore]
  let risk := assessRisk now opp confidence
  let reasoning := reasoning ++ [.riskLevelIs risk]
  let excessCost := optimizeGasCosts opp
  let adjustedProfit := adjustedProfit - excessCost
  let reasoning := reasoning ++ [.gasOptimization excessCost]
  let confidence := max 0 (min 1 confidence)
  let recommendation := makeRecommendation cfg confidence risk adjustedProfit
  { confidence := confidence
    adjustedProfit := adjustedProfit
    risk := risk
    recommendation := recommendation
    reasoning := reasoning }

/-- The recommendation rule exactly as the specification states it (claim C1):
EXECUTE when `confidence >= confidenceThreshold` and
`adjustedProfit > minProfitThreshold`, except WAIT when additionally risk is
HIGH and `confidence < 0.9`; otherwise SKIP when
`adjustedProfit < minProfitThreshold/2` or `confidence < 0.3`; otherwise
WAIT. -/
def specRecommendationRule (cfg : Config) (confidence : Rat) (risk : Risk)
    (adjustedProfit : Rat) : Recommendation :=
  if confidence ≥ cfg.confidenceThreshold ∧ adjustedProfit > cfg.minProfitThresholdUSD then
    if risk = .HIGH ∧ confidence < 0.9 then .WAIT else .EXECUTE
  else if adjustedProfit < cfg.minProfitThresholdUSD / 2 ∨ confidence < 0.3 then .SKIP
  else .WAIT

/-- The additive risk score exactly as the specification states it (claim C5). -/
def specRiskScore (now : Rat) (opp : TradeOpportunity) (confidence : Rat) : Nat :=
  (if opp.profitUSD > 100 then 2 else if opp.profitUSD > 50 then 1 else 0)
  + (if opp.gasEstimate > 0.05 then 2 else if opp.gasEstimate > 0.02 then 1 else 0)
  + (if confidence < 0.5 then 2 else if confidence < 0.7 then 1 else 0)
  + (if now - opp.timestamp > 30000 then 2 else if now - opp.timestamp > 10000 then 1 else 0)

/-- C1: the recommendation produced by `evaluateOpportunity` is
`makeRecommendation` applied to the evaluation's own (clamped) confidence, risk
tier and adjusted profit — a pure function of those values and the configured
thresholds — and `makeRecommendation` coincides with the specification's
recommendation rule on all inputs. -/
theorem evaluate_recommendation_rule :
    (∀ (cfg : Config) (confidence : Rat) (risk : Risk) (profit : Rat),
      makeRecommendation cfg confidence risk profit
        = specRecommendationRule cfg confidence risk profit)
    ∧ ∀ (cfg : Config) (hour : Nat) (now : Rat) (pred : Option Rat)
        (opp : TradeOpportunity),
        (evaluateOpportunity cfg hour now pred opp).recommendation
          = makeRecommendation cfg
              (evaluateOpportunity cfg hour now pred opp).confidence
              (evaluateOpportunity cfg hour now pred opp).risk
              (evaluateOpportunity cfg hour now pred opp).adjustedProfit := by
  constructor
  · intro cfg confidence risk profit
    rfl
  · intro cfg hour now pred opp
    rfl

/-- C2: whatever the input confidence (negative or above 1 included), the
confidence of the returned evaluation lies in the closed interval [0, 1]. -/
theorem evaluate_confidence_in_unit_interval
    (cfg : Config) (hour : Nat) (now : Rat) (pred : Option Rat)
    (opp : TradeOpportunity) :
    0 ≤ (evaluateOpportunity cfg hour now pred opp).confidence ∧
      (evaluateOpportunity cfg hour now pred opp).confidence ≤ 1 := by
  constructor
  · show (0 : Rat) ≤ max 0 (min 1 _)
    exact le_max_left 0 _
  · show max (0 : Rat) (min 1 _) ≤ 1
    exact max_le (by norm_num) (min_le_left 1 _)

/-- C5: the risk tier computed by `assessRisk` is HIGH exactly when the
additive risk score of the specification is at least 4, MEDIUM exactly when it
is at least 2 and less than 4, and LOW otherwise. -/
theorem assessRisk_matches_spec_score
    (now : Rat) (opp : TradeOpportunity) (confidence : Rat) :
    (assessRisk now opp confidence = .HIGH ↔ 4 ≤ specRiskScore now opp confidence)
    ∧ (assessRisk now opp confidence = .MEDIUM ↔
        2 ≤ specRiskScore now opp confidence ∧ specRiskScore now opp confidence < 4)
    ∧ (assessRisk now opp confidence = .LOW ↔ specRiskScore now opp confidence < 2) := by
  have h : assessRisk now opp confidence =
      if 4 ≤ specRiskScore now opp confidence then Risk.HIGH
      else if 2 ≤ specRiskScore now opp confidence then Risk.MEDIUM
      else Risk.LOW := by
    simp only [assessRisk, specRiskScore, Nat.zero_add, ge_iff_le]
  rw [h]
  split_ifs with h1 h2 <;> simp_all
  omega

/-- `PerformanceMetrics` from `types.ts`, as initialized and maintained by
`tradingEngine.ts`. -/
structure PerformanceMetrics where
  totalTrades : Nat
  successfulTrades : Nat
  failedTrades : Nat
  totalProfitUSD : Rat
  totalLossUSD : Rat
  netProfitUSD : Rat
  averageTradeTime : Rat
  tradesPerSecond : Rat
  successRate : Rat
  sharpeRatio : Rat
  maxDrawdown : Rat
  winRate : Rat
  profitFactor : Rat
  timestamp : Rat
deriving DecidableEq

/-- `initializeMetrics` of `tradingEngine.ts` (`now` models `Date.now()`). -/
def initializeMetrics (now : Rat) : PerformanceMetrics :=
  { totalTrades := 0
    successfulTrades := 0
    failedTrades := 0
    totalProfitUSD := 0
    totalLossUSD := 0
    netProfitUSD := 0
    averageTradeTime := 0
    tradesPerSecond := 0
    successRate := 0
    sharpeRatio := 0
    maxDrawdown := 0
    winRate := 0
    profitFactor := 0
    timestamp := now }

/-- `TradeResult` from `types.ts`, with the fields written by
`executeOpportunity`. -/
structure TradeResult where
  id : String
  strategyId : String
  opportunity : TradeOpportunity
  success : Bool
  profitUSD : Rat
  gasUsed : Rat
  transactionHash : Option String
  executionTime : Rat
  timestamp : Rat
deriving DecidableEq

/-- The mutable state of the `TradingEngine` instance that the modelled methods
read and write: `this.metrics` and `this.tradeHistory`. -/
structure EngineState where
  metrics : PerformanceMetrics
  tradeHistory : List TradeResult
deriving DecidableEq

/-- Engine state right after the constructor ran. -/
def initialEngineState (now : Rat) : EngineState :=
  { metrics := initializeMetrics now, tradeHistory := [] }

/-- `updateDerivedMetrics` of `tradingEngine.ts`, applied to the metrics after
the counter updates and to the trade history of the engine. -/
def updateDerivedMetrics (now : Rat) (m : PerformanceMetrics)
    (history : List TradeResult) : PerformanceMetrics :=
  let m :=
    if m.totalTrades > 0 then
      let rate := ((m.successfulTrades : Rat) / (m.totalTrades : Rat)) * 100
      { m with successRate := rate, winRate := rate }
    else m
  let m :=
    if m.totalLossUSD > 0 then
      { m with profitFactor := m.totalProfitUSD / m.totalLossUSD }
    else m
  let m :=
    if history.length > 0 then
      { m with averageTradeTime :=
          (history.map (·.executionTime)).sum / (history.length : Rat) }
    else m
  { m with timestamp := now }

/-- `recordTradeResult` of `tradingEngine.ts`: push to the history, bump the
counters, then recompute the derived metrics. -/
def recordTradeResult (now : Rat) (st : EngineState) (r : TradeResult) : EngineState :=
  let history := st.tradeHistory ++ [r]
  let m := st.metrics
  let m := { m with totalTrades := m.totalTrades + 1 }
  let m :=
    if r.success then
      { m with successfulTrades := m.successfulTrades + 1
               totalProfitUSD := m.totalProfitUSD + r.profitUSD
               netProfitUSD := m.netProfitUSD + r.profitUSD }
    else
      { m with failedTrades := m.failedTrades + 1
               totalLossUSD := m.totalLossUSD + |r.profitUSD|
               netProfitUSD := m.netProfitUSD - |r.profitUSD| }
  { metrics := updateDerivedMetrics now m history, tradeHistory := history }

/-- `checkRiskLimits` of `tradingEngine.ts`.  The hard-coded reference price is
2000 USD per ETH. -/
def checkRiskLimits (cfg : Config) (m : PerformanceMetrics)
    (opp : TradeOpportunity) : Bool :=
  if !cfg.enableRiskLimits then true
  else if opp.profitUSD > cfg.maxPositionSizeETH * 2000 then false
  else if m.totalLossUSD > cfg.maxDailyLossETH * 2000 then false
  else true

/-- `executeOpportunity` of `tradingEngine.ts`.  The `Math.random()`-driven
outcome of `performTrade` is passed in as `success`, the random transaction
hash as `txHash`, the measured `Date.now() - startTime` as `execTime`, and
`Date.now()` at result-construction time as `now`.  Returns the updated engine
state, and the recorded `TradeResult` when the risk gate permitted. -/
def executeOpportunity (cfg : Config) (st : EngineState)
    (opp : TradeOpportunity) (success : Bool) (execTime : Rat) (now : Rat)
    (txHash : String) : EngineState × Option TradeResult :=
  if checkRiskLimits cfg st.metrics opp then
    let result : TradeResult :=
      { id := "trade_" ++ toString now
        strategyId := "unknown"
        opportunity := opp
        success := success
        profitUSD := if success then opp.profitUSD else 0
        gasUsed := if success then opp.gasEstimate else 0
        transactionHash := if success then some txHash else none
        executionTime := execTime
        timestamp := now }
    (recordTradeResult now st result, some result)
  else (st, none)

/-- `Strategy` from `types.ts`, with the fields read or written by the
modelled registry operations.  The free-form `parameters` record is never read
by any modelled operation and is omitted. -/
structure Strategy where
  id : String
  name : String
  type : String
  riskLevel : Risk
  enabled : Bool
  priority : Nat
  successRate : Rat
  totalTrades : Nat
  totalProfitUSD : Rat
  lastExecution : Option Rat
deriving DecidableEq

/-- The `strategies : Map<string, Strategy>` of `strategyRegistry.ts`.  A JS
`Map` iterates in insertion order and `set` on an existing key keeps its
position, so it is modelled as a list keyed by `id`. -/
def registerStrategy (l : List Strategy) (s : Strategy) : List Strategy :=
  if l.any (fun t => t.id == s.id) then
    l.map (fun t => if t.id == s.id then s else t)
  else l ++ [s]

/-- `getStrategy` of `strategyRegistry.ts`. -/
def getStrategy (l : List Strategy) (id : String) : Option Strategy :=
  l.find? (fun t => t.id == id)

/-- The mutation `updateStrategyPerformance` performs on the one strategy it
found: increment the trade count, fold the outcome into the running success
rate, add the profit on success or subtract its absolute value on failure, and
stamp the last execution time. -/
def applyOutcome (now : Rat) (success : Bool) (profit : Rat) (s : Strategy) : Strategy :=
  let n := s.totalTrades + 1
  if success then
    { s with totalTrades := n
             successRate := (s.successRate * ((n : Rat) - 1) + 100) / (n : Rat)
             totalProfitUSD := s.totalProfitUSD + profit
             lastExecution := some now }
  else
    { s with totalTrades := n
             successRate := (s.successRate * ((n : Rat) - 1)) / (n : Rat)
             totalProfitUSD := s.totalProfitUSD - |profit|
             lastExecution := some now }

/-- `updateStrategyPerformance` of `strategyRegistry.ts`: a no-op when `id` is
not registered, otherwise `applyOutcome` on the entry with that key. -/
def updateStrategyPerformance (now : Rat) (l : List Strategy) (id : String)
    (success : Bool) (profit : Rat) : List Strategy :=
  l.map (fun t => if t.id == id then applyOutcome now success profit t else t)

/-- `getTopPerformingStrategies` of `strategyRegistry.ts`: the JS stable sort
with comparator `(a, b) => b.totalProfitUSD - a.totalProfitUSD`, then
`slice(0, limit)`. -/
def getTopPerformingStrategies (l : List Strategy) (limit : Nat) : List Strategy :=
  (l.mergeSort (fun a b => decide (b.totalProfitUSD ≤ a.totalProfitUSD))).take limit

/-- A concrete opportunity fixture. -/
def mkOpportunity (id : String) (profitUSD gasEstimate confidence timestamp : Rat) :
    TradeOpportunity :=
  { id := id
    type := "ARBITRAGE"
    tokenA := "ETH"
    tokenB := "USDT"
    exchangeA := "Uniswap"
    exchangeB := "Sushiswap"
    priceA := 2000
    priceB := 2010
    profitUSD := profitUSD
    profitPercent := 1
    gasEstimate := gasEstimate
    confidence := confidence
    timestamp := timestamp }

/-- A concrete trade-result fixture. -/
def mkResult (success : Bool) (profitUSD executionTime : Rat) : TradeResult :=
  { id := "t"
    strategyId := "unknown"
    opportunity := mkOpportunity "o" profitUSD 0.01 0.9 0
    success := success
    profitUSD := profitUSD
    gasUsed := 0
    transactionHash := none
    executionTime := executionTime
    timestamp := 0 }

/-- Risk limiting enabled, max position 1 ETH, max daily loss 1 ETH. -/
def cfgRiskOn : Config :=
  { confidenceThreshold := 0.7
    minProfitThresholdUSD := 10
    enableRiskLimits := true
    maxPositionSizeETH := 1
    maxDailyLossETH := 1 }

/-- Risk limiting disabled. -/
def cfgRiskOff : Config :=
  { confidenceThreshold := 0.7
    minProfitThresholdUSD := 10
    enableRiskLimits := false
    maxPositionSizeETH := 1
    maxDailyLossETH := 1 }

/-- C3: the risk gate permits everything when limiting is disabled; when
enabled it rejects exactly when the opportunity's profit exceeds the maximum
position size at the 2000 reference price or the cumulative loss exceeds the
converted daily maximum; with `maxPositionSizeETH = 1` a 2500 USD opportunity
is rejected and a 1500 USD one accepted. -/
theorem riskGate_permits_characterization :
    (∀ (cfg : Config) (m : PerformanceMetrics) (opp : TradeOpportunity),
      cfg.enableRiskLimits = false → checkRiskLimits cfg m opp = true)
    ∧ (∀ (cfg : Config) (m : PerformanceMetrics) (opp : TradeOpportunity),
        cfg.enableRiskLimits = true →
        (checkRiskLimits cfg m opp = false ↔
          cfg.maxPositionSizeETH * 2000 < opp.profitUSD ∨
            cfg.maxDailyLossETH * 2000 < m.totalLossUSD))
    ∧ checkRiskLimits cfgRiskOn (initializeMetrics 0) (mkOpportunity "a" 2500 0.01 0.9 0)
        = false
    ∧ checkRiskLimits cfgRiskOn (initializeMetrics 0) (mkOpportunity "b" 1500 0.01 0.9 0)
        = true := by
  refine ⟨?_, ?_,
    by norm_num [checkRiskLimits, cfgRiskOn, initializeMetrics, mkOpportunity],
    by norm_num [checkRiskLimits, cfgRiskOn, initializeMetrics, mkOpportunity]⟩
  · intro cfg m opp h
    simp [checkRiskLimits, h]
  · intro cfg m opp h
    simp only [checkRiskLimits, h, Bool.not_true]
    split_ifs with h1 h2 <;> simp_all

/-- Witness for `riskGate_permits_characterization`: with limiting disabled a
2500 USD opportunity is permitted. -/
theorem riskGate_permits_characterization_witness :
    checkRiskLimits cfgRiskOff (initializeMetrics 0)
      (mkOpportunity "a" 2500 0.01 0.9 0) = true :=
  riskGate_permits_characterization.1 cfgRiskOff (initializeMetrics 0)
    (mkOpportunity "a" 2500 0.01 0.9 0) rfl

/-- Recording appends the result to the trade history. -/
theorem recordTradeResult_history (now : Rat) (st : EngineState) (r : TradeResult) :
    (recordTradeResult now st r).tradeHistory = st.tradeHistory ++ [r] := rfl

/-- After a record, `averageTradeTime` is the mean execution time of the new
(necessarily nonempty) history. -/
theorem recordTradeResult_avg (now : Rat) (st : EngineState) (r : TradeResult) :
    (recordTradeResult now st r).metrics.averageTradeTime =
      ((st.tradeHistory ++ [r]).map (·.executionTime)).sum /
        (((st.tradeHistory ++ [r]).length : Nat) : Rat) := by
  simp [recordTradeResult, updateDerivedMetrics]

/-- Folding records over a list appends it to the history. -/
theorem foldl_record_history (now : Rat) (rs : List TradeResult) :
    ∀ st : EngineState,
      (rs.foldl (recordTradeResult now) st).tradeHistory = st.tradeHistory ++ rs := by
  induction rs with
  | nil => intro st; simp
  | cons r rest ih =>
      intro st
      simp [List.foldl_cons, ih, recordTradeResult_history]

/-- C4: recording success(100), fail(40), success(60) from the zero state
yields exactly the claimed counters, rates and profit factor; a record that
leaves `totalLossUSD` at zero leaves `profitFactor` unchanged; and after any
nonempty sequence of records `averageTradeTime` is the arithmetic mean of all
recorded execution durations. -/
theorem metricsAggregator_record_properties :
    (let st := recordTradeResult 0
        (recordTradeResult 0
          (recordTradeResult 0 (initialEngineState 0) (mkResult true 100 10))
          (mkResult false 40 20))
        (mkResult true 60 30)
     st.metrics.totalTrades = 3 ∧ st.metrics.successfulTrades = 2 ∧
       st.metrics.totalProfitUSD = 160 ∧ st.metrics.totalLossUSD = 40 ∧
       st.metrics.netProfitUSD = 120 ∧ |st.metrics.successRate - 66.67| ≤ 0.01 ∧
       st.metrics.profitFactor = 4)
    ∧ (∀ (now : Rat) (st : EngineState) (r : TradeResult),
        (recordTradeResult now st r).metrics.totalLossUSD = 0 →
        (recordTradeResult now st r).metrics.profitFactor = st.metrics.profitFactor)
    ∧ (∀ (now t0 : Rat) (rs : List TradeResult), rs ≠ [] →
        (rs.foldl (recordTradeResult now) (initialEngineState t0)).metrics.averageTradeTime
          = (rs.map (·.executionTime)).sum / ((rs.length : Nat) : Rat)) := by
  refine ⟨by norm_num [recordTradeResult, updateDerivedMetrics, initialEngineState,
      initializeMetrics, mkResult, mkOpportunity, abs_le], ?_, ?_⟩
  · intro now st r h
    simp only [recordTradeResult, updateDerivedMetrics] at *
    split_ifs at * <;> simp_all
  · intro now t0 rs hne
    rcases List.eq_nil_or_concat rs with h | ⟨L, b, rfl⟩
    · exact absurd h hne
    · rw [List.concat_eq_append, List.foldl_append]
      simp only [List.foldl_cons, List.foldl_nil]
      rw [recordTradeResult_avg, foldl_record_history]
      simp [initialEngineState]

/-- Witness for `metricsAggregator_record_properties`: the mean execution time
after a single record. -/
theorem metricsAggregator_record_properties_witness :
    (([mkResult true 100 10] : List TradeResult).foldl (recordTradeResult 0)
        (initialEngineState 0)).metrics.averageTradeTime
      = (([mkResult true 100 10] : List TradeResult).map (·.executionTime)).sum /
          (((([mkResult true 100 10] : List TradeResult).length : Nat)) : Rat) :=
  metricsAggregator_record_properties.2.2 0 0 [mkResult true 100 10] (by simp)

/-- A concrete strategy fixture. -/
def mkStrategy (id : String) (priority : Nat) (successRate : Rat)
    (totalTrades : Nat) (totalProfitUSD : Rat) : Strategy :=
  { id := id
    name := "S"
    type := "ARBITRAGE"
    riskLevel := .LOW
    enabled := true
    priority := priority
    successRate := successRate
    totalTrades := totalTrades
    totalProfitUSD := totalProfitUSD
    lastExecution := none }

/-- A fresh strategy with zero trades. -/
def stratS0 : Strategy := mkStrategy "s" 1 0 0 0

/-- `applyOutcome` never changes the strategy's key. -/
theorem applyOutcome_id (now : Rat) (success : Bool) (profit : Rat) (s : Strategy) :
    (applyOutcome now success profit s).id = s.id := by
  cases success <;> rfl

/-- `updateStrategyPerformance` rewrites exactly the entry found under `id`. -/
theorem find?_updateStrategyPerformance (now : Rat) (success : Bool) (profit : Rat)
    (id : String) :
    ∀ (l : List Strategy) (s : Strategy),
      l.find? (fun t => t.id == id) = some s →
      (updateStrategyPerformance now l id success profit).find? (fun t => t.id == id)
        = some (applyOutcome now success profit s) := by
  intro l
  induction l with
  | nil => intro s h; simp at h
  | cons t rest ih =>
      intro s h
      simp only [updateStrategyPerformance, List.map_cons] at *
      by_cases ht : (t.id == id) = true
      · simp only [List.find?_cons, ht] at h
        injection h with h
        subst h
        rw [if_pos ht]
        simp only [List.find?_cons, applyOutcome_id, ht]
      · have ht' : (t.id == id) = false := by simpa using ht
        simp only [List.find?_cons, ht'] at h
        simp only [ht', Bool.false_eq_true, if_false, List.find?_cons]
        exact ih s h

/-- Counterexample to C6 as stated: on a failed trade with `profitDelta = -5`
the code subtracts the absolute value (10 − |−5| = 5); subtracting the delta
itself, as the claim reads, would give 10 − (−5) = 15. -/
theorem recordOutcome_negative_delta_cex :
    ((updateStrategyPerformance 0 [mkStrategy "s" 1 80 3 10] "s" false (-5)).find?
        (fun t => t.id == "s")).map (fun t => t.totalProfitUSD) = some 5
    ∧ (mkStrategy "s" 1 80 3 10).totalProfitUSD - (-5 : Rat) = 15
    ∧ (5 : Rat) ≠ 15 := by
  refine ⟨?_, by norm_num [mkStrategy], by norm_num⟩
  norm_num [updateStrategyPerformance, applyOutcome, mkStrategy, List.find?]

/-- `applyOutcome` written with the specification's single success-rate
formula: the failure branch only differs by an added zero. -/
theorem applyOutcome_eq_spec (now : Rat) (success : Bool) (profit : Rat) (s : Strategy) :
    applyOutcome now success profit s =
      { s with
        totalTrades := s.totalTrades + 1
        successRate := (s.successRate * (((s.totalTrades + 1 : Nat) : Rat) - 1)
            + if success then 100 else 0) / ((s.totalTrades + 1 : Nat) : Rat)
        totalProfitUSD := if success then s.totalProfitUSD + profit
            else s.totalProfitUSD - |profit|
        lastExecution := some now } := by
  cases success <;> simp [applyOutcome]

/-- C6 (amended): `recordOutcome` updates the found strategy with
`newRate = (oldRate*(n-1) + (success ? 100 : 0))/n` for the post-increment
count `n`, adds the profit delta on success and subtracts its absolute value
on failure, and stamps the last execution; starting from zero trades one
success gives rate 100 and a subsequent failure gives rate 50. -/
theorem recordOutcome_update_rule :
    (∀ (now : Rat) (l : List Strategy) (id : String) (success : Bool)
        (profit : Rat) (s : Strategy),
      l.find? (fun t => t.id == id) = some s →
      (updateStrategyPerformance now l id success profit).find? (fun t => t.id == id)
        = some { s with
            totalTrades := s.totalTrades + 1
            successRate := (s.successRate * (((s.totalTrades + 1 : Nat) : Rat) - 1)
                + if success then 100 else 0) / ((s.totalTrades + 1 : Nat) : Rat)
            totalProfitUSD := if success then s.totalProfitUSD + profit
                else s.totalProfitUSD - |profit|
            lastExecution := some now })
    ∧ ((updateStrategyPerformance 1 [stratS0] "s" true 10).find?
          (fun t => t.id == "s")).map (fun t => t.successRate) = some 100
    ∧ ((updateStrategyPerformance 2 (updateStrategyPerformance 1 [stratS0] "s" true 10)
          "s" false 10).find? (fun t => t.id == "s")).map (fun t => t.successRate)
        = some 50 := by
  refine ⟨?_, ?_, ?_⟩
  · intro now l id success profit s h
    rw [find?_updateStrategyPerformance now success profit id l s h,
      applyOutcome_eq_spec]
  · norm_num [updateStrategyPerformance, applyOutcome, stratS0, mkStrategy, List.find?]
  · norm_num [updateStrategyPerformance, applyOutcome, stratS0, mkStrategy, List.find?]

/-- Witness for `recordOutcome_update_rule`: the general update rule applied to
a fresh strategy and one successful 10 USD trade. -/
theorem recordOutcome_update_rule_witness :
    (updateStrategyPerformance 1 [stratS0] "s" true 10).find? (fun t => t.id == "s")
      = some { stratS0 with
          totalTrades := stratS0.totalTrades + 1
          successRate := (stratS0.successRate * (((stratS0.totalTrades + 1 : Nat) : Rat) - 1)
              + if true then 100 else 0) / ((stratS0.totalTrades + 1 : Nat) : Rat)
          totalProfitUSD := if true then stratS0.totalProfitUSD + 10
              else stratS0.totalProfitUSD - |(10 : Rat)|
          lastExecution := some 1 } :=
  recordOutcome_update_rule.1 1 [stratS0] "s" true 10 stratS0
    (by simp [stratS0, mkStrategy])

/-- `executeOpportunity` viewed on the global state including the strategy
registry singleton.  The source method reads and writes only `this.metrics`
and `this.tradeHistory`; its body contains no reference to `strategyRegistry`
and no call to `updateStrategyPerformance`, so its effect on the registry
component is the identity. -/
def executeOpportunityWithRegistry (cfg : Config) (reg : List Strategy)
    (st : EngineState) (opp : TradeOpportunity) (success : Bool)
    (execTime now : Rat) (txHash : String) :
    List Strategy × EngineState × Option TradeResult :=
  let r := executeOpportunity cfg st opp success execTime now txHash
  (reg, r.1, r.2)

/-- C7 (amended): executing an opportunity leaves the strategy registry
untouched, and the recorded trade result — produced exactly when the risk gate
permits — always carries the literal strategy identity "unknown" (so the
reference-or-unknown invariant holds trivially, and no strategy's performance
stats are updated by execution). -/
theorem executeOpportunity_registry_and_unknown :
    (∀ (cfg : Config) (reg : List Strategy) (st : EngineState)
        (opp : TradeOpportunity) (success : Bool) (execTime now : Rat)
        (txHash : String),
      (executeOpportunityWithRegistry cfg reg st opp success execTime now txHash).1 = reg)
    ∧ (∀ (cfg : Config) (st : EngineState) (opp : TradeOpportunity)
        (success : Bool) (execTime now : Rat) (txHash : String),
        ((executeOpportunity cfg st opp success execTime now txHash).2).map
            (fun r => r.strategyId)
          = if checkRiskLimits cfg st.metrics opp then some "unknown" else none) := by
  constructor
  · intro cfg reg st opp success execTime now txHash
    rfl
  · intro cfg st opp success execTime now txHash
    by_cases hc : checkRiskLimits cfg st.metrics opp = true
    · simp [executeOpportunity, hc]
    · have hc' : checkRiskLimits cfg st.metrics opp = false := by simpa using hc
      simp [executeOpportunity, hc']

/-- Counterexample to C7 as stated: a successful execution of an opportunity
originating from strategy "s1" is recorded, yet the registry after execution is
exactly the registry before (strategy "s1" keeps 0 trades), whereas the claimed
stats update would have changed it. -/
theorem strategyStats_not_updated_cex :
    (executeOpportunityWithRegistry cfgRiskOff [mkStrategy "s1" 1 0 0 0]
        (initialEngineState 0) (mkOpportunity "s1_1" 40 0.01 0.9 0)
        true 5 1000 "h").1 = [mkStrategy "s1" 1 0 0 0]
    ∧ ((executeOpportunityWithRegistry cfgRiskOff [mkStrategy "s1" 1 0 0 0]
        (initialEngineState 0) (mkOpportunity "s1_1" 40 0.01 0.9 0)
        true 5 1000 "h").2.2).map (fun r => r.success) = some true
    ∧ updateStrategyPerformance 1000 [mkStrategy "s1" 1 0 0 0] "s1" true 40
        ≠ [mkStrategy "s1" 1 0 0 0] := by
  refine ⟨rfl, ?_, ?_⟩
  · simp [executeOpportunityWithRegistry, executeOpportunity, checkRiskLimits, cfgRiskOff]
  · simp [updateStrategyPerformance, applyOutcome, mkStrategy, Strategy.mk.injEq]

/-- C9 (amended): when the profit predictor fails, the evaluation is computed
from the opportunity's own stated confidence and profit — the confidence is the
clamped market-adjusted input confidence, the adjusted profit is the
opportunity's profit minus the gas excess — and the reasoning list contains
only the market, risk and gas entries (the fallback is logged, not noted in the
reasoning). -/
theorem predictor_fallback_uses_own_values (cfg : Config) (hour : Nat)
    (now : Rat) (opp : TradeOpportunity) :
    (evaluateOpportunity cfg hour now none opp).confidence
      = max 0 (min 1 (opp.confidence * analyzeMarketConditions hour opp))
    ∧ (evaluateOpportunity cfg hour now none opp).adjustedProfit
      = opp.profitUSD - optimizeGasCosts opp
    ∧ (evaluateOpportunity cfg hour now none opp).reasoning
      = [.marketConditionScore (analyzeMarketConditions hour opp),
         .riskLevelIs (assessRisk now opp
            (opp.confidence * analyzeMarketConditions hour opp)),
         .gasOptimization (optimizeGasCosts opp)] :=
  ⟨rfl, rfl, rfl⟩

/-- Counterexample to C9 as stated: on predictor failure the evaluation is
byte-for-byte the one produced when the predictor succeeds with a perfectly
aligned value, and its reasoning holds only the market, risk and gas entries —
nothing in the reasoning notes the fallback. -/
theorem predictor_fallback_not_noted_cex :
    evaluateOpportunity cfgRiskOff 3 1000 none (mkOpportunity "opp1" 6 0.01 0.7 1000)
      = evaluateOpportunity cfgRiskOff 3 1000 (some 6)
          (mkOpportunity "opp1" 6 0.01 0.7 1000)
    ∧ (evaluateOpportunity cfgRiskOff 3 1000 none
          (mkOpportunity "opp1" 6 0.01 0.7 1000)).reasoning
        = [.marketConditionScore 0.9, .riskLevelIs .LOW, .gasOptimization 0] := by
  constructor
  · norm_num [evaluateOpportunity, analyzeMarketConditions, assessRisk,
      optimizeGasCosts, makeRecommendation, mkOpportunity, cfgRiskOff]
  · norm_num [evaluateOpportunity, analyzeMarketConditions, assessRisk,
      optimizeGasCosts, makeRecommendation, mkOpportunity, cfgRiskOff]

/-- Sorting a two-element list with a stable sort keeps the original order
exactly when the comparator accepts the pair. -/
theorem mergeSort_pair {α : Type} (le : α → α → Bool) (a b : α) :
    List.mergeSort [a, b] le = if le a b then [a, b] else [b, a] := by
  rw [List.mergeSort]
  simp only [List.splitInTwo_fst, List.splitInTwo_snd]
  norm_num
  rw [List.cons_merge_cons]
  split_ifs <;> simp

/-- A stable sort does not reorder the elements of one equivalence class of the
comparator: filtering the sorted list by a predicate on which the comparator is
constantly true gives the same list as filtering the input. -/
theorem mergeSort_filter_stable {α : Type} (le : α → α → Bool)
    (htrans : ∀ a b c, le a b → le b c → le a c)
    (htotal : ∀ a b, le a b || le b a)
    (l : List α) (p : α → Bool) (hp : ∀ a b, p a → p b → le a b) :
    (List.mergeSort l le).filter p = l.filter p := by
  have hpair : (l.filter p).Pairwise (fun a b => le a b) := by
    apply List.pairwise_of_forall_mem_list
    intro a ha b hb
    exact hp a b (List.of_mem_filter ha) (List.of_mem_filter hb)
  have hsub : List.Sublist (l.filter p) (List.mergeSort l le) :=
    List.sublist_mergeSort htrans htotal hpair (List.filter_sublist l)
  have hsub2 : List.Sublist (l.filter p) ((List.mergeSort l le).filter p) := by
    have h := hsub.filter p
    rwa [show (l.filter p).filter p = l.filter p by
      rw [List.filter_filter]; simp] at h
  have hperm : List.Perm ((List.mergeSort l le).filter p) (l.filter p) :=
    (List.mergeSort_perm l le).filter p
  exact (hsub2.eq_of_length hperm.length_eq.symm).symm

/-- A strategy with total profit 100 and priority 5, registered first. -/
def sTieA : Strategy := mkStrategy "a" 5 0 0 100

/-- A strategy with total profit 100 and priority 1, registered second. -/
def sTieB : Strategy := mkStrategy "b" 1 0 0 100

/-- Counterexample to C8 as stated: with two equal-profit strategies whose
priorities are 5 (registered first) and 1 (registered second), the query
returns them in insertion order, which violates the claimed
profit-descending-then-priority-ascending order. -/
theorem topPerformers_tiebreak_cex :
    getTopPerformingStrategies [sTieA, sTieB] 2 = [sTieA, sTieB]
    ∧ ¬ ((getTopPerformingStrategies [sTieA, sTieB] 2).Pairwise
        (fun x y => y.totalProfitUSD < x.totalProfitUSD
          ∨ (x.totalProfitUSD = y.totalProfitUSD ∧ x.priority ≤ y.priority))) := by
  have h : getTopPerformingStrategies [sTieA, sTieB] 2 = [sTieA, sTieB] := by
    rw [getTopPerformingStrategies, mergeSort_pair]
    norm_num [sTieA, sTieB, mkStrategy]
  refine ⟨h, ?_⟩
  rw [h]
  intro hp
  rcases List.pairwise_cons.mp hp with ⟨hrel, -⟩
  have := hrel sTieB (List.mem_singleton.mpr rfl)
  rcases this with h1 | ⟨-, h2⟩
  · exact absurd h1 (by norm_num [sTieA, sTieB, mkStrategy])
  · exact absurd h2 (by norm_num [sTieA, sTieB, mkStrategy])

/-- C8 (amended): the top-performers query is the `limit`-prefix of a list that
is a permutation of the store, sorted descending by total realized profit, and
stable — strategies of equal total profit stay in the store's insertion order
(priority is not consulted). -/
theorem topPerformers_sorted_stable (l : List Strategy) (limit : Nat) :
    ∃ s : List Strategy,
      getTopPerformingStrategies l limit = s.take limit
      ∧ List.Perm s l
      ∧ s.Pairwise (fun x y => y.totalProfitUSD ≤ x.totalProfitUSD)
      ∧ ∀ v : Rat, s.filter (fun t => decide (t.totalProfitUSD = v))
          = l.filter (fun t => decide (t.totalProfitUSD = v)) := by
  have htrans : ∀ a b c : Strategy,
      decide (b.totalProfitUSD ≤ a.totalProfitUSD) →
      decide (c.totalProfitUSD ≤ b.totalProfitUSD) →
      decide (c.totalProfitUSD ≤ a.totalProfitUSD) := by
    intro a b c hab hbc
    simp only [decide_eq_true_eq] at *
    exact le_trans hbc hab
  have htotal : ∀ a b : Strategy,
      decide (b.totalProfitUSD ≤ a.totalProfitUSD)
        || decide (a.totalProfitUSD ≤ b.totalProfitUSD) := by
    intro a b
    simp only [Bool.or_eq_true, decide_eq_true_eq]
    exact le_total b.totalProfitUSD a.totalProfitUSD
  refine ⟨List.mergeSort l (fun a b => decide (b.totalProfitUSD ≤ a.totalProfitUSD)),
    rfl, List.mergeSort_perm l _, ?_, ?_⟩
  · have hs := List.sorted_mergeSort htrans htotal l
    exact hs.imp (fun h => of_decide_eq_true h)
  · intro v
    apply mergeSort_filter_stable _ htrans htotal
    intro a b ha hb
    have ha' : a.totalProfitUSD = v := of_decide_eq_true ha
    have hb' : b.totalProfitUSD = v := of_decide_eq_true hb
    simp [ha', hb']

/-- `evaluateOpportunities` of `tradingEngine.ts`: each opportunity is
re-evaluated and replaced by a copy carrying the evaluation's confidence and —
through the JS `||` operator, which treats 0 as falsy — the adjusted profit or,
when that is 0, the original profit; the copies are then sorted by confidence
descending (JS `Array.prototype.sort` is stable). -/
def evaluateOpportunities (cfg : Config) (hour : Nat) (now : Rat)
    (pred : TradeOpportunity → Option Rat) (opps : List TradeOpportunity) :
    List TradeOpportunity :=
  let evaluated := opps.map fun o =>
    let e := evaluateOpportunity cfg hour now (pred o) o
    { o with confidence := e.confidence
             profitUSD := if e.adjustedProfit = 0 then o.profitUSD else e.adjustedProfit }
  evaluated.mergeSort (fun a b => decide (b.confidence ≤ a.confidence))

/-- The execution loop at the end of `processTradingCycle`: each surviving
opportunity goes through `executeOpportunity` in order, threading the engine
state; the recorded results are collected. -/
def executeMany (cfg : Config) (now : Rat) (succ : TradeOpportunity → Bool)
    (dur : TradeOpportunity → Rat) (txh : TradeOpportunity → String) :
    EngineState → List TradeOpportunity → EngineState × List TradeResult
  | st, [] => (st, [])
  | st, o :: rest =>
      let r := executeOpportunity cfg st o (succ o) (dur o) now (txh o)
      match r.2 with
      | some tr =>
          let res := executeMany cfg now succ dur txh r.1 rest
          (res.1, tr :: res.2)
      | none => executeMany cfg now succ dur txh r.1 rest

/-- `processTradingCycle` of `tradingEngine.ts` from the point where the
opportunities have been sourced: evaluate, filter by
`confidence >= config.ai.confidenceThreshold`, and execute the survivors in
order. -/
def processTradingCycle (cfg : Config) (hour : Nat) (now : Rat)
    (pred : TradeOpportunity → Option Rat) (succ : TradeOpportunity → Bool)
    (dur : TradeOpportunity → Rat) (txh : TradeOpportunity → String)
    (st : EngineState) (opps : List TradeOpportunity) :
    EngineState × List TradeResult :=
  let evaluated := evaluateOpportunities cfg hour now pred opps
  let high := evaluated.filter (fun o => decide (o.confidence ≥ cfg.confidenceThreshold))
  executeMany cfg now succ dur txh st high

/-- With risk limiting disabled every submitted opportunity is executed and
recorded, in order. -/
theorem executeMany_all_executed (cfg : Config) (now : Rat)
    (succ : TradeOpportunity → Bool) (dur : TradeOpportunity → Rat)
    (txh : TradeOpportunity → String) (hoff : cfg.enableRiskLimits = false) :
    ∀ (opps : List TradeOpportunity) (st : EngineState),
      ((executeMany cfg now succ dur txh st opps).2).map (fun r => r.opportunity)
        = opps := by
  intro opps
  induction opps with
  | nil => intro st; rfl
  | cons o rest ih =>
      intro st
      have hc : checkRiskLimits cfg st.metrics o = true := by
        simp [checkRiskLimits, hoff]
      simp [executeMany, executeOpportunity, hc, ih]

/-- Every recorded result comes from one of the submitted opportunities. -/
theorem executeMany_sound (cfg : Config) (now : Rat)
    (succ : TradeOpportunity → Bool) (dur : TradeOpportunity → Rat)
    (txh : TradeOpportunity → String) :
    ∀ (opps : List TradeOpportunity) (st : EngineState) (r : TradeResult),
      r ∈ (executeMany cfg now succ dur txh st opps).2 → r.opportunity ∈ opps := by
  intro opps
  induction opps with
  | nil => intro st r h; simp [executeMany] at h
  | cons o rest ih =>
      intro st r h
      by_cases hc : checkRiskLimits cfg st.metrics o = true
      · simp only [executeMany, executeOpportunity, hc, if_true] at h
        rcases List.mem_cons.mp h with h | h
        · subst h; exact List.mem_cons_self _ _
        · exact List.mem_cons_of_mem _ (ih _ r h)
      · have hc' : checkRiskLimits cfg st.metrics o = false := by simpa using hc
        simp only [executeMany, executeOpportunity, hc', Bool.false_eq_true,
          if_false] at h
        exact List.mem_cons_of_mem _ (ih _ r h)

/-- The execution loop composes over list concatenation: the suffix runs from
the state the prefix produced, and the recorded results concatenate. -/
theorem executeMany_append (cfg : Config) (now : Rat)
    (succ : TradeOpportunity → Bool) (dur : TradeOpportunity → Rat)
    (txh : TradeOpportunity → String) :
    ∀ (l₁ l₂ : List TradeOpportunity) (st : EngineState),
      executeMany cfg now succ dur txh st (l₁ ++ l₂)
        = ((executeMany cfg now succ dur txh
              (executeMany cfg now succ dur txh st l₁).1 l₂).1,
           (executeMany cfg now succ dur txh st l₁).2
             ++ (executeMany cfg now succ dur txh
                  (executeMany cfg now succ dur txh st l₁).1 l₂).2) := by
  intro l₁
  induction l₁ with
  | nil => intro l₂ st; simp [executeMany]
  | cons o rest ih =>
      intro l₂ st
      simp only [List.cons_append, executeMany]
      cases h : (executeOpportunity cfg st o (succ o) (dur o) now (txh o)).2 <;>
        simp [h, ih]

/-- The configuration used in the concrete cycle run: confidence threshold 0.5,
minimum profit 20 USD, risk limiting disabled. -/
def cfgCycle : Config :=
  { confidenceThreshold := 0.5
    minProfitThresholdUSD := 20
    enableRiskLimits := false
    maxPositionSizeETH := 1
    maxDailyLossETH := 1 }

/-- The same configuration with risk limiting enabled (position cap 1 ETH,
daily loss cap 1 ETH at the 2000 reference price). -/
def cfgCycleOn : Config :=
  { confidenceThreshold := 0.5
    minProfitThresholdUSD := 20
    enableRiskLimits := true
    maxPositionSizeETH := 1
    maxDailyLossETH := 1 }

/-- An opportunity whose evaluation under `cfgCycle` at hour 3 is SKIP
(confidence 0.63 ≥ 0.5 but adjusted profit 6 < 20/2). -/
def oppSkip : TradeOpportunity := mkOpportunity "skip1" 6 0.01 0.7 1000

set_option maxHeartbeats 1600000 in
/-- C10: the coordinator selects by evaluated confidence and the risk gate
only.  For every configuration — risk limiting enabled or not — and every
position of the confidence-filtered evaluated list, the executed results
decompose as the prefix's results, the opportunity at that position exactly
when the risk gate passes against the state the prefix produced, and the
suffix's results — so every filtered opportunity passing the risk check at its
turn is submitted, and nothing else decides.  With risk limiting disabled the
executed results are exactly the filtered list; every result's opportunity met
the threshold; and the recommendation field is never consulted: a concrete
opportunity whose evaluation says SKIP is executed both with risk limiting
disabled and with it enabled. -/
theorem cycle_ignores_recommendation :
    (∀ (cfg : Config) (hour : Nat) (now : Rat)
        (pred : TradeOpportunity → Option Rat) (succ : TradeOpportunity → Bool)
        (dur : TradeOpportunity → Rat) (txh : TradeOpportunity → String)
        (st : EngineState) (opps : List TradeOpportunity),
      cfg.enableRiskLimits = false →
      ((processTradingCycle cfg hour now pred succ dur txh st opps).2).map
          (fun r => r.opportunity)
        = (evaluateOpportunities cfg hour now pred opps).filter
            (fun o => decide (o.confidence ≥ cfg.confidenceThreshold)))
    ∧ (∀ (cfg : Config) (hour : Nat) (now : Rat)
        (pred : TradeOpportunity → Option Rat) (succ : TradeOpportunity → Bool)
        (dur : TradeOpportunity → Rat) (txh : TradeOpportunity → String)
        (st : EngineState) (opps : List TradeOpportunity) (r : TradeResult),
        r ∈ (processTradingCycle cfg hour now pred succ dur txh st opps).2 →
        r.opportunity.confidence ≥ cfg.confidenceThreshold)
    ∧ (∀ (cfg : Config) (hour : Nat) (now : Rat)
        (pred : TradeOpportunity → Option Rat) (succ : TradeOpportunity → Bool)
        (dur : TradeOpportunity → Rat) (txh : TradeOpportunity → String)
        (st : EngineState) (opps : List TradeOpportunity)
        (l₁ : List TradeOpportunity) (o : TradeOpportunity)
        (l₂ : List TradeOpportunity),
        (evaluateOpportunities cfg hour now pred opps).filter
            (fun x => decide (x.confidence ≥ cfg.confidenceThreshold))
          = l₁ ++ o :: l₂ →
        ((processTradingCycle cfg hour now pred succ dur txh st opps).2).map
            (fun r => r.opportunity)
          = ((executeMany cfg now succ dur txh st l₁).2).map
              (fun r => r.opportunity)
            ++ (if checkRiskLimits cfg
                  ((executeMany cfg now succ dur txh st l₁).1).metrics o
                then [o] else [])
            ++ ((executeMany cfg now succ dur txh
                  (executeOpportunity cfg (executeMany cfg now succ dur txh st l₁).1
                    o (succ o) (dur o) now (txh o)).1 l₂).2).map
                (fun r => r.opportunity))
    ∧ ((evaluateOpportunity cfgCycle 3 1000 none oppSkip).recommendation
          = .SKIP
        ∧ ((processTradingCycle cfgCycle 3 1000 (fun _ => none) (fun _ => true)
              (fun _ => 10) (fun _ => "h") (initialEngineState 0) [oppSkip]).2).map
            (fun r => r.opportunity.id) = ["skip1"])
    ∧ ((evaluateOpportunity cfgCycleOn 3 1000 none oppSkip).recommendation
          = .SKIP
        ∧ ((processTradingCycle cfgCycleOn 3 1000 (fun _ => none) (fun _ => true)
              (fun _ => 10) (fun _ => "h") (initialEngineState 0) [oppSkip]).2).map
            (fun r => r.opportunity.id) = ["skip1"]) := by
  refine ⟨?_, ?_, ?_, ⟨?_, ?_⟩, ?_, ?_⟩
  · intro cfg hour now pred succ dur txh st opps hoff
    exact executeMany_all_executed cfg now succ dur txh hoff _ st
  · intro cfg hour now pred succ dur txh st opps r h
    have hmem := executeMany_sound cfg now succ dur txh _ st r h
    have := List.of_mem_filter hmem
    exact of_decide_eq_true this
  · intro cfg hour now pred succ dur txh st opps l₁ o l₂ hsplit
    have hres : (processTradingCycle cfg hour now pred succ dur txh st opps)
        = executeMany cfg now succ dur txh st (l₁ ++ o :: l₂) := by
      rw [show (processTradingCycle cfg hour now pred succ dur txh st opps)
          = executeMany cfg now succ dur txh st
              ((evaluateOpportunities cfg hour now pred opps).filter
                (fun x => decide (x.confidence ≥ cfg.confidenceThreshold)))
          from rfl, hsplit]
    rw [hres, executeMany_append]
    by_cases hrisk : checkRiskLimits cfg
        ((executeMany cfg now succ dur txh st l₁).1).metrics o = true
    · simp [executeMany, executeOpportunity, hrisk]
    · have hrisk' : checkRiskLimits cfg
          ((executeMany cfg now succ dur txh st l₁).1).metrics o = false := by
        simpa using hrisk
      simp [executeMany, executeOpportunity, hrisk']
  · norm_num [evaluateOpportunity, analyzeMarketConditions, assessRisk,
      optimizeGasCosts, makeRecommendation, mkOpportunity, oppSkip, cfgCycle]
  · norm_num [processTradingCycle, evaluateOpportunities, evaluateOpportunity,
      analyzeMarketConditions, assessRisk, optimizeGasCosts, makeRecommendation,
      mkOpportunity, oppSkip, cfgCycle, executeMany, executeOpportunity,
      checkRiskLimits, initialEngineState, initializeMetrics]
  · norm_num [evaluateOpportunity, analyzeMarketConditions, assessRisk,
      optimizeGasCosts, makeRecommendation, mkOpportunity, oppSkip, cfgCycleOn]
  · norm_num [processTradingCycle, evaluateOpportunities, evaluateOpportunity,
      analyzeMarketConditions, assessRisk, optimizeGasCosts, makeRecommendation,
      mkOpportunity, oppSkip, cfgCycleOn, executeMany, executeOpportunity,
      checkRiskLimits, initialEngineState, initializeMetrics]

/-- Witness for `cycle_ignores_recommendation`: the disabled-risk
characterization applied to the concrete single-opportunity cycle. -/
theorem cycle_ignores_recommendation_witness :
    ((processTradingCycle cfgCycle 3 1000 (fun _ => none) (fun _ => true)
        (fun _ => 10) (fun _ => "h") (initialEngineState 0) [oppSkip]).2).map
        (fun r => r.opportunity)
      = (evaluateOpportunities cfgCycle 3 1000 (fun _ => none) [oppSkip]).filter
          (fun o => decide (o.confidence ≥ cfgCycle.confidenceThreshold)) :=
  cycle_ignores_recommendation.1 cfgCycle 3 1000 (fun _ => none) (fun _ => true)
    (fun _ => 10) (fun _ => "h") (initialEngineState 0) [oppSkip] rfl

end In1
